import Mathlib

/-!
Verification of the streaming chat-turn engine of the chat_webui_v2
frontend, embedded shallowly from the TypeScript source:

* `src/frontend/src/hooks/useChatSession.ts` — per-session turn state
  (the hook state: messages, error, stream, lastCompletion, abort handle),
  the stream-event handler, `sendPrompt`, `cancelStream`.
* `src/frontend/src/api/client.ts` — the SSE frame decoder and the
  per-line interpreter inside `streamSSE`.
* `src/frontend/src/components/ChatMetricsHUD.tsx` — derivation of the
  displayed token counts from the completed-turn snapshot.

Strings of the wire protocol are modelled as `List Char`; the platform
JSON parser (`JSON.parse`, a browser builtin that is not part of this
repository) is abstracted as a function `List Char → Option ChatStreamEvent`,
with `none` standing for a parse exception.
-/

namespace ChatWebUI

/-- Metrics objects (`Record<string, unknown>` in the source) are carried
around opaquely by the turn machinery; they are modelled as association
lists. The empty object `\x7b\x7d` is the empty list. -/
abbrev MetricsObj := List (String × String)

/-- The `StreamingState` record of `useChatSession.ts`. TypeScript
distinguishes `undefined` and `null` for the token fields, but every
consumer reads them through `??`, which treats the two alike, so both are
collapsed to `none`. -/
structure StreamingState where
  active : Bool
  content : String
  status : Option String
  startedAt : Option Nat
  promptTokens : Option Nat
  completionTokens : Option Nat
  totalTokens : Option Nat
  metrics : Option MetricsObj
deriving DecidableEq, Repr

/-- The `MessageRead` rows held in the transcript (`messages` state). -/
structure MessageRead where
  id : Int
  session_id : Nat
  role : String
  content : String
  model : Option String
  prompt_tokens : Option Nat
  completion_tokens : Option Nat
  total_tokens : Option Nat
  metrics : MetricsObj
  is_pinned : Bool
  created_at : String
deriving DecidableEq, Repr

/-- The mutable state of one `useChatSession` hook instance: the
transcript, the surfaced error, the live stream state, the completed-turn
snapshot, and whether an abort controller is currently held. -/
structure HookState where
  messages : List MessageRead
  errorMsg : Option String
  stream : StreamingState
  lastCompletion : Option StreamingState
  hasController : Bool
deriving DecidableEq, Repr

/-- The closed tagged union `ChatStreamEvent` of `client.ts`. The
`other` constructor stands for a successfully parsed JSON document whose
`type` discriminator matches none of the five known tags; the handler
switch sends it to its `default` branch. -/
inductive ChatStreamEvent where
  | chunk (content : String) (thinking : Option String)
  | status (message : String)
  | heartbeat
  | complete (prompt_tokens completion_tokens total_tokens : Option Nat)
      (metrics : Option MetricsObj)
  | error (message : String)
  | other
deriving DecidableEq, Repr

/-- The stream state installed by `useState` initially and by
`resetStream`: `\x7b active: false, content: \x27\x27 \x7d` with every other field
absent. -/
def initialStream : StreamingState :=
  { active := false, content := "", status := none, startedAt := none,
    promptTokens := none, completionTokens := none, totalTokens := none,
    metrics := none }

/-- The `resetStream` callback: replaces the stream state wholesale and
drops the abort controller (`abortController.current = null`). -/
def resetStreamS (s : HookState) : HookState :=
  { s with stream := initialStream, hasController := false }

/-- The hook state on mount: empty transcript, no error, idle stream, no
completed-turn snapshot, no controller. -/
def initialHookState : HookState :=
  { messages := [], errorMsg := none, stream := initialStream,
    lastCompletion := none, hasController := false }

/-- The `handleStreamEvent` callback of `useChatSession.ts` (lines
81-126), as a pure transition on the hook state. A `chunk` stores the
event content verbatim (cumulative payloads: replace, never append); a
`status` or `heartbeat` only rewrites the status text; an `error` surfaces
the message and resets the stream; a `complete` copies the token fields
(`?? null`) into the stream state and publishes the completed-turn
snapshot; an unrecognized event falls to the `default` branch and is
ignored. -/
def handleStreamEvent (s : HookState) (e : ChatStreamEvent) : HookState :=
  match e with
  | .chunk content _thinking =>
      { s with stream := { s.stream with active := true, content := content } }
  | .status message =>
      { s with stream := { s.stream with status := some message } }
  | .heartbeat =>
      { s with stream := { s.stream with status := some "Streaming…" } }
  | .error message =>
      resetStreamS { s with errorMsg := some message }
  | .complete pt ct tt m =>
      { s with
        stream := { s.stream with
                      promptTokens := pt, completionTokens := ct,
                      totalTokens := tt, metrics := m },
        lastCompletion := some
          { active := false, content := "", status := none, startedAt := none,
            promptTokens := pt, completionTokens := ct, totalTokens := tt,
            metrics := some (m.getD []) } }
  | .other => s

/-- The optimistic user row synthesized by `sendPrompt` before the request
is issued: sentinel id `-Date.now()`, `role: user`, the draft prompt as
content, empty metrics, not pinned. The ISO timestamp is modelled as the
decimal rendering of the clock value. -/
def optimisticMessage (sid : Nat) (now : Nat) (prompt : String)
    (model : Option String) : MessageRead :=
  { id := -(now : Int), session_id := sid, role := "user", content := prompt,
    model := model, prompt_tokens := none, completion_tokens := none,
    total_tokens := none, metrics := [], is_pinned := false,
    created_at := toString now }

/-- State written by `sendPrompt` once its guards pass: the completed-turn
snapshot and the surfaced error are cleared, a fresh abort controller is
installed, and the stream state becomes
`\x7b active: true, content: \x27\x27, status: Contacting model, startedAt: now \x7d`. -/
def startStream (now : Nat) (s : HookState) : HookState :=
  { s with
    hasController := true, lastCompletion := none, errorMsg := none,
    stream := { active := true, content := "",
                status := some "Contacting model…", startedAt := some now,
                promptTokens := none, completionTokens := none,
                totalTokens := none, metrics := none } }

/-- JavaScript truthiness of the optional `prompt` argument: absent and
the empty string are both falsy. -/
def promptTruthy : Option String → Bool
  | none => false
  | some s => !s.isEmpty

/-- JavaScript truthiness of the optional `regenerateMessageId` argument:
absent and zero are both falsy. -/
def regenTruthy : Option Int → Bool
  | none => false
  | some n => n != 0

/-- JavaScript truthiness of the optional session id: absent and zero are
both falsy (`if (!sessionId) throw ...`). -/
def sessionTruthy : Option Nat → Bool
  | none => false
  | some n => n != 0

/-- The argument record of `sendPrompt` (`ChatSendOptions`). The
`systemPrompt` and generation-override fields only shape the request
payload and never touch the hook state, so the overrides are not
modelled. -/
structure ChatSendOptions where
  prompt : Option String := none
  model : Option String := none
  systemPrompt : Option String := none
  regenerateMessageId : Option Int := none
deriving DecidableEq, Repr

/-- How one turn of `await api.chat.stream(...)` resolves, seen from
`sendPrompt`:

* `drained events serverMessages` — the reader loop ended, either because
  the connection closed or because a mid-stream abort was swallowed by
  the `AbortError` catch inside `streamSSE`; `sendPrompt` then awaits
  `loadMessages`, whose refetch returns `serverMessages`.
* `abortError` — the promise rejected with an `AbortError` (the abort hit
  the initial `fetch`, before any event was delivered); `sendPrompt`
  returns from its catch without refetching.
* `failed events message` — the promise rejected with a non-abort
  transport failure after delivering `events`; `sendPrompt` surfaces the
  message without refetching. -/
inductive StreamOutcome where
  | drained (events : List ChatStreamEvent) (serverMessages : List MessageRead)
  | abortError
  | failed (events : List ChatStreamEvent) (message : String)
deriving Repr

/-- The tail of `sendPrompt` after submission: deliver each stream event
to `handleStreamEvent`, then either refetch the transcript (stream
drained: `loadMessages` clears the error, replaces the messages wholesale)
or surface the failure, and in every case run the `finally` block
(`resetStream`). -/
def runStream (s : HookState) (o : StreamOutcome) : HookState :=
  match o with
  | .drained events serverMessages =>
      resetStreamS
        { events.foldl handleStreamEvent s with
          errorMsg := none, messages := serverMessages }
  | .abortError =>
      resetStreamS s
  | .failed events message =>
      resetStreamS
        { events.foldl handleStreamEvent s with errorMsg := some message }

/-- The `sendPrompt` callback (lines 128-187). The three guards throw
synchronously, before any network I/O and before any state is touched;
otherwise the stream state is armed, the optimistic row is appended when a
truthy prompt is given without a regenerate id, and the turn runs to its
outcome. -/
def sendPrompt (sessionId : Option Nat) (now : Nat) (s : HookState)
    (opts : ChatSendOptions) (o : StreamOutcome) : Except String HookState :=
  if !sessionTruthy sessionId then
    .error "Select or create a session before chatting"
  else if s.stream.active then
    .error "Streaming already in progress"
  else if !promptTruthy opts.prompt && !regenTruthy opts.regenerateMessageId then
    .error "Prompt is required"
  else
    let sid := sessionId.getD 0
    let s1 := startStream now s
    let s2 :=
      if promptTruthy opts.prompt && !regenTruthy opts.regenerateMessageId then
        { s1 with messages :=
            s1.messages ++ [optimisticMessage sid now (opts.prompt.getD "") opts.model] }
      else s1
    .ok (runStream s2 o)

/-- The `cancelStream` callback (lines 189-192): abort the in-flight
transport, if any, and reset the stream state. The abort only influences
the transport (it selects the `abortError` or the swallowed-abort
`drained` outcome of the turn in flight); its state effect is exactly
`resetStream`. -/
def cancelStream (s : HookState) : HookState :=
  resetStreamS s

/-- The persisted per-session totals (`SessionMetricsResponse`) that the
HUD falls back to when no completed-turn snapshot exists. -/
structure SessionMetricsResponse where
  total_prompt_tokens : Option Nat
  total_completion_tokens : Option Nat
  total_messages : Option Nat
deriving DecidableEq, Repr

/-- The `safeMetric` helper of `ChatMetricsHUD.tsx`: a non-number (absent)
value falls back to zero. -/
def safeMetric (value : Option Nat) : Nat := value.getD 0

/-- The token counts displayed by `ChatMetricsHUD.tsx` (lines 11-14):
prompt and completion counts read the completed-turn snapshot through
`??`, falling back to `safeMetric` over the session totals; the total
falls back to the sum of the two displayed counts. Returns
`(promptTokens, completionTokens, totalTokens)`. -/
def hudTokenCounts (lastCompletion : Option StreamingState)
    (sessionMetrics : Option SessionMetricsResponse) : Nat × Nat × Nat :=
  let promptTokens := (lastCompletion.bind (fun lc => lc.promptTokens)).getD
    (safeMetric (sessionMetrics.bind (fun m => m.total_prompt_tokens)))
  let completionTokens := (lastCompletion.bind (fun lc => lc.completionTokens)).getD
    (safeMetric (sessionMetrics.bind (fun m => m.total_completion_tokens)))
  let totalTokens := (lastCompletion.bind (fun lc => lc.totalTokens)).getD
    (promptTokens + completionTokens)
  (promptTokens, completionTokens, totalTokens)

/-! ### Event frame decoder (`streamSSE`, client.ts lines 113-125)

The reader loop appends each decoded fragment to a string buffer, splits
the buffer on the blank-line delimiter (the two-character sequence of two
newlines, `buffer.split`), emits every piece but the last as a complete
frame, and keeps the last piece as the new buffer (`events.pop()`). -/

/-- Helper for the splitter: prepend a character to the first piece of a
piece list (of an empty piece list, start one). -/
def consHead (c : Char) : List (List Char) → List (List Char)
  | [] => [[c]]
  | p :: ps => (c :: p) :: ps

/-- JavaScript `buffer.split` with the two-newline separator: leftmost,
non-overlapping matches; always returns at least one piece; a separator
at the very start or end contributes an empty piece. -/
def splitFrames : List Char → List (List Char)
  | [] => [[]]
  | [c] => [[c]]
  | c1 :: c2 :: rest =>
    if c1 = '\n' ∧ c2 = '\n' then [] :: splitFrames rest
    else consHead c1 (splitFrames (c2 :: rest))

/-- Last element of a list with a default — JavaScript
`events.pop() ?? ...` on the piece list. -/
def lastD {α : Type} : List α → α → α
  | [], d => d
  | [a], _ => a
  | _ :: b :: t, d => lastD (b :: t) d

/-- One iteration of the reader loop body: split the buffer extended by
the arriving fragment; all pieces but the last are the frames emitted now,
the last piece is the carried-over buffer. -/
def feedFragment (buf frag : List Char) : List (List Char) × List Char :=
  let parts := splitFrames (buf ++ frag)
  (parts.dropLast, lastD parts [])

/-- The whole reader loop over a fragment sequence: returns the ordered
list of emitted frames and the final (unterminated, discarded) buffer. -/
def runDecoder (buf : List Char) : List (List Char) → List (List Char) × List Char
  | [] => ([], buf)
  | frag :: frags =>
    let step := feedFragment buf frag
    let rest := runDecoder step.2 frags
    (step.1 ++ rest.1, rest.2)

/-- Concatenation of all fragments: the full input text they split. -/
def concatAll : List (List Char) → List Char
  | [] => []
  | l :: ls => l ++ concatAll ls

section DecoderLemmas

lemma consHead_ne_nil (c : Char) (S : List (List Char)) : consHead c S ≠ [] := by
  cases S <;> simp [consHead]

lemma splitFrames_ne_nil : ∀ l : List Char, splitFrames l ≠ [] := by
  intro l
  match l with
  | [] => simp [splitFrames]
  | [c] => simp [splitFrames]
  | c1 :: c2 :: rest =>
      simp only [splitFrames]
      split
      · simp
      · exact consHead_ne_nil _ _

lemma lastD_cons_ne {α : Type} (a d : α) (l : List α) (h : l ≠ []) :
    lastD (a :: l) d = lastD l d := by
  cases l with
  | nil => exact absurd rfl h
  | cons b t => rfl

lemma dropLast_cons_ne {α : Type} (a : α) (l : List α) (h : l ≠ []) :
    (a :: l).dropLast = a :: l.dropLast := by
  cases l with
  | nil => exact absurd rfl h
  | cons b t => rfl

lemma ne_nil_append_right {α : Type} (l1 l2 : List α) (h : l2 ≠ []) :
    l1 ++ l2 ≠ [] := by
  cases l2 with
  | nil => exact absurd rfl h
  | cons b t => simp

lemma lastD_append_ne {α : Type} (d : α) :
    ∀ (l1 l2 : List α), l2 ≠ [] → lastD (l1 ++ l2) d = lastD l2 d := by
  intro l1
  induction l1 with
  | nil => intro l2 h; rfl
  | cons a t ih =>
      intro l2 h
      rw [List.cons_append, lastD_cons_ne a d _ (ne_nil_append_right t l2 h)]
      exact ih l2 h

lemma dropLast_append_ne {α : Type} :
    ∀ (l1 l2 : List α), l2 ≠ [] → (l1 ++ l2).dropLast = l1 ++ l2.dropLast := by
  intro l1
  induction l1 with
  | nil => intro l2 h; rfl
  | cons a t ih =>
      intro l2 h
      rw [List.cons_append, dropLast_cons_ne a _ (ne_nil_append_right t l2 h),
        ih l2 h, List.cons_append]

/-- Splitting a cons cell whose head position is not a separator match. -/
lemma splitFrames_cons_of_head (c : Char) (l : List Char)
    (h : ¬(c = '\n' ∧ l.head? = some '\n')) :
    splitFrames (c :: l) = consHead c (splitFrames l) := by
  cases l with
  | nil => rfl
  | cons d t =>
      have hcd : ¬(c = '\n' ∧ d = '\n') := by simpa using h
      simp only [splitFrames]
      rw [if_neg hcd]

/-- The first piece of a split starts with the first character when that
character is not a newline. -/
lemma splitFrames_starts (c : Char) (l : List Char) (h : c ≠ '\n') :
    ∃ p ps, splitFrames (c :: l) = (c :: p) :: ps := by
  have hcond : ¬(c = '\n' ∧ l.head? = some '\n') := fun hx => h hx.1
  rw [splitFrames_cons_of_head c l hcond]
  cases hS : splitFrames l with
  | nil => exact absurd hS (splitFrames_ne_nil l)
  | cons p ps => exact ⟨p, ps, by simp [consHead]⟩

/-- Key compositionality of the splitter: splitting a concatenation
equals emitting the complete pieces of the left part and re-splitting its
dangling last piece joined with the right part. This is exactly the
buffering step of the decoder. -/
lemma splitFrames_append : ∀ (x : List Char), ∀ (y : List Char),
    splitFrames (x ++ y)
      = (splitFrames x).dropLast
          ++ splitFrames (lastD (splitFrames x) [] ++ y) := by
  intro x
  induction x using splitFrames.induct with
  | case1 => intro y; simp [splitFrames, lastD]
  | case2 c => intro y; simp [splitFrames, lastD]
  | case3 c1 c2 rest h ih =>
      obtain ⟨h1, h2⟩ := h
      subst h1; subst h2
      intro y
      have e1 : splitFrames ('\n' :: '\n' :: rest) = [] :: splitFrames rest := by
        simp [splitFrames]
      have e2 : splitFrames ('\n' :: '\n' :: (rest ++ y))
          = [] :: splitFrames (rest ++ y) := by
        simp [splitFrames]
      have hne := splitFrames_ne_nil rest
      calc splitFrames (('\n' :: '\n' :: rest) ++ y)
          = [] :: splitFrames (rest ++ y) := by
            rw [List.cons_append, List.cons_append, e2]
        _ = [] :: ((splitFrames rest).dropLast
              ++ splitFrames (lastD (splitFrames rest) [] ++ y)) := by
            rw [ih y]
        _ = (splitFrames ('\n' :: '\n' :: rest)).dropLast
              ++ splitFrames (lastD (splitFrames ('\n' :: '\n' :: rest)) [] ++ y) := by
            rw [e1, dropLast_cons_ne _ _ hne, lastD_cons_ne _ _ _ hne,
              List.cons_append]
  | case4 c1 c2 rest h ih =>
      intro y
      have e2 : splitFrames (c1 :: c2 :: (rest ++ y))
          = consHead c1 (splitFrames (c2 :: (rest ++ y))) := by
        simp only [splitFrames]
        rw [if_neg h]
      have e1 : splitFrames (c1 :: c2 :: rest)
          = consHead c1 (splitFrames (c2 :: rest)) := by
        simp only [splitFrames]
        rw [if_neg h]
      cases hS : splitFrames (c2 :: rest) with
      | nil => exact absurd hS (splitFrames_ne_nil _)
      | cons p ps =>
          have ihy := ih y
          rw [hS] at ihy
          cases ps with
          | nil =>
              -- single dangling piece: everything joins the right part
              have hp : ¬(c1 = '\n' ∧ (p ++ y).head? = some '\n') := by
                by_cases hc1 : c1 = '\n'
                · have hc2 : c2 ≠ '\n' := fun hc2 => h ⟨hc1, hc2⟩
                  obtain ⟨q, qs, hq⟩ := splitFrames_starts c2 rest hc2
                  rw [hS] at hq
                  intro hx
                  rw [List.cons.injEq] at hq
                  have : p = c2 :: q := hq.1
                  rw [this] at hx
                  exact hc2 (by simpa using hx.2)
                · exact fun hx => hc1 hx.1
              calc splitFrames ((c1 :: c2 :: rest) ++ y)
                  = consHead c1 (splitFrames ((c2 :: rest) ++ y)) := by
                    rw [List.cons_append, List.cons_append, e2]
                _ = consHead c1 (splitFrames (p ++ y)) := by
                    rw [ihy]
                    simp [lastD]
                _ = splitFrames (c1 :: (p ++ y)) :=
                    (splitFrames_cons_of_head c1 (p ++ y) hp).symm
                _ = (splitFrames (c1 :: c2 :: rest)).dropLast
                      ++ splitFrames (lastD (splitFrames (c1 :: c2 :: rest)) [] ++ y) := by
                    rw [e1, hS]
                    simp [consHead, lastD]
          | cons q qs =>
              have hqne : (q :: qs) ≠ [] := by simp
              calc splitFrames ((c1 :: c2 :: rest) ++ y)
                  = consHead c1 (splitFrames ((c2 :: rest) ++ y)) := by
                    rw [List.cons_append, List.cons_append, e2]
                _ = consHead c1 ((p :: q :: qs).dropLast
                      ++ splitFrames (lastD (p :: q :: qs) [] ++ y)) := by
                    rw [ihy]
                _ = (c1 :: p) :: ((q :: qs).dropLast
                      ++ splitFrames (lastD (q :: qs) [] ++ y)) := by
                    rw [dropLast_cons_ne _ _ hqne, lastD_cons_ne _ _ _ hqne]
                    simp [consHead]
                _ = (splitFrames (c1 :: c2 :: rest)).dropLast
                      ++ splitFrames (lastD (splitFrames (c1 :: c2 :: rest)) [] ++ y) := by
                    rw [e1, hS]
                    simp [consHead, dropLast_cons_ne _ _ hqne,
                      lastD_cons_ne _ _ _ hqne]

/-- The decoder run over a nonempty fragment list emits exactly the
complete pieces of the split of buffer-plus-everything, and buffers the
last piece. -/
lemma runDecoder_cons_spec :
    ∀ (frags : List (List Char)) (frag buf : List Char),
      runDecoder buf (frag :: frags)
        = ((splitFrames (buf ++ concatAll (frag :: frags))).dropLast,
            lastD (splitFrames (buf ++ concatAll (frag :: frags))) []) := by
  intro frags
  induction frags with
  | nil =>
      intro frag buf
      simp [runDecoder, feedFragment, concatAll]
  | cons g gs ih =>
      intro frag buf
      have hsplit := splitFrames_append (buf ++ frag) (concatAll (g :: gs))
      have hQ := splitFrames_ne_nil
        (lastD (splitFrames (buf ++ frag)) [] ++ concatAll (g :: gs))
      calc runDecoder buf (frag :: g :: gs)
          = ((splitFrames (buf ++ frag)).dropLast
              ++ (runDecoder (lastD (splitFrames (buf ++ frag)) []) (g :: gs)).1,
             (runDecoder (lastD (splitFrames (buf ++ frag)) []) (g :: gs)).2) := by
            simp [runDecoder, feedFragment]
        _ = ((splitFrames (buf ++ frag)).dropLast
              ++ (splitFrames (lastD (splitFrames (buf ++ frag)) []
                    ++ concatAll (g :: gs))).dropLast,
             lastD (splitFrames (lastD (splitFrames (buf ++ frag)) []
                    ++ concatAll (g :: gs))) []) := by
            rw [ih g (lastD (splitFrames (buf ++ frag)) [])]
        _ = ((splitFrames (buf ++ concatAll (frag :: g :: gs))).dropLast,
             lastD (splitFrames (buf ++ concatAll (frag :: g :: gs))) []) := by
            have harr : buf ++ concatAll (frag :: g :: gs)
                = (buf ++ frag) ++ concatAll (g :: gs) := by
              simp [concatAll, List.append_assoc]
            rw [harr, hsplit, dropLast_append_ne _ _ hQ, lastD_append_ne _ _ _ hQ]

end DecoderLemmas

/-- C7 (confirmed): fragmentation invariance of the frame decoder. For
every full input text and every way of splitting it into an ordered
fragment sequence, the buffering reader loop emits exactly the frames
obtained by splitting the full text on blank-line boundaries, excluding
the final unterminated remainder (which stays buffered and is discarded
at stream end). -/
theorem c7_fragmentation_invariance :
    ∀ (text : List Char) (frags : List (List Char)),
      concatAll frags = text →
      (runDecoder [] frags).1 = (splitFrames text).dropLast := by
  intro text frags h
  subst h
  cases frags with
  | nil => rfl
  | cons frag rest =>
      rw [runDecoder_cons_spec rest frag []]
      simp

/-- Witness for C7: a concrete text carrying two complete frames and a
remainder, cut at fragment boundaries that split the blank-line delimiter
itself. -/
theorem c7_witness :
    concatAll ["a\n".toList, "\nbc\n".toList, "\ncd".toList]
      = "a\n\nbc\n\ncd".toList
    ∧ (runDecoder [] ["a\n".toList, "\nbc\n".toList, "\ncd".toList]).1
      = (splitFrames "a\n\nbc\n\ncd".toList).dropLast :=
  ⟨by decide,
    c7_fragmentation_invariance "a\n\nbc\n\ncd".toList
      ["a\n".toList, "\nbc\n".toList, "\ncd".toList] (by decide)⟩

/-! ### Stream event interpreter (`streamSSE`, client.ts lines 125-144)

Each complete frame is split on single newlines, every line is trimmed,
empty lines and comment lines (leading colon) are skipped, and a line
carrying the `data:` field has the field name and any following
whitespace stripped; an empty remaining payload is skipped without a
parse attempt, otherwise the payload goes to the platform JSON parser —
a parse failure is logged (counted here) and dropped. -/

/-- Whitespace test standing for both JavaScript `trim` and the `\s`
class of the payload-stripping pattern, over the characters that occur
in this protocol. -/
def isWs (c : Char) : Bool :=
  c == ' ' || c == '\t' || c == '\n' || c == '\r'

/-- JavaScript `line.trim()`: strip leading and trailing whitespace. -/
def trim (l : List Char) : List Char :=
  ((l.dropWhile isWs).reverse.dropWhile isWs).reverse

/-- JavaScript `chunk.split` on a single newline. -/
def splitNL : List Char → List (List Char)
  | [] => [[]]
  | c :: rest =>
    if c = '\n' then [] :: splitNL rest else consHead c (splitNL rest)

/-- The significant field name of the wire protocol, `data:`. -/
def dataMark : List Char := ['d', 'a', 't', 'a', ':']

/-- Interpretation of one trimmed line: the event it delivers, if any,
and how many decode diagnostics it emits (0 or 1). Empty lines, comment
lines, non-`data:` lines and empty payloads deliver nothing silently; a
payload the JSON parser rejects delivers nothing and counts one
diagnostic. -/
def processLine (parse : List Char → Option ChatStreamEvent)
    (line : List Char) : Option ChatStreamEvent × Nat :=
  if line = [] then (none, 0)
  else if line.take 1 = [':'] then (none, 0)
  else if line.take 5 = dataMark then
    let payload := (line.drop 5).dropWhile isWs
    if payload = [] then (none, 0)
    else
      match parse payload with
      | some e => (some e, 0)
      | none => (none, 1)
  else (none, 0)

/-- The payload a trimmed line submits to the JSON parser, if any
(mirrors the skip conditions of `processLine`). -/
def linePayload (line : List Char) : Option (List Char) :=
  if line = [] then none
  else if line.take 1 = [':'] then none
  else if line.take 5 = dataMark then
    let payload := (line.drop 5).dropWhile isWs
    if payload = [] then none else some payload
  else none

/-- Interpretation of a list of trimmed lines, in order: delivered events
and total diagnostics. -/
def processLines (parse : List Char → Option ChatStreamEvent) :
    List (List Char) → List ChatStreamEvent × Nat
  | [] => ([], 0)
  | l :: ls =>
    let lineResult := processLine parse l
    let rest := processLines parse ls
    (lineResult.1.toList ++ rest.1, lineResult.2 + rest.2)

/-- Interpretation of one frame: split on newlines, trim each line,
interpret the lines in order. -/
def processFrame (parse : List Char → Option ChatStreamEvent)
    (frame : List Char) : List ChatStreamEvent × Nat :=
  processLines parse ((splitNL frame).map trim)

/-- All payloads a frame submits to the JSON parser. -/
def dataPayloads (frame : List Char) : List (List Char) :=
  ((splitNL frame).map trim).filterMap linePayload

/-- Interpretation of a sequence of frames on one connection. -/
def processFrames (parse : List Char → Option ChatStreamEvent) :
    List (List Char) → List ChatStreamEvent × Nat
  | [] => ([], 0)
  | f :: fs =>
    let frameResult := processFrame parse f
    let rest := processFrames parse fs
    (frameResult.1 ++ rest.1, frameResult.2 + rest.2)

/-- A concrete stand-in for the platform JSON parser that rejects every
payload. -/
def parseNone : List Char → Option ChatStreamEvent := fun _ => none

/-- Concrete frame whose only payload fails to parse. -/
def exFrame : List Char := "data: nonsense".toList

/-- Concrete well-formed data line. -/
def exLine : List Char := "data: x".toList

section InterpreterLemmas

/-- Line interpretation factored through the submitted payload. -/
lemma processLine_eq_payload (parse : List Char → Option ChatStreamEvent)
    (line : List Char) :
    processLine parse line =
      match linePayload line with
      | none => (none, 0)
      | some p =>
        match parse p with
        | some e => (some e, 0)
        | none => (none, 1) := by
  by_cases h1 : line = []
  · simp [processLine, linePayload, h1]
  · by_cases h2 : line.take 1 = [':']
    · simp [processLine, linePayload, h1, h2]
    · by_cases h3 : line.take 5 = dataMark
      · by_cases h4 : (line.drop 5).dropWhile isWs = []
        · simp [processLine, linePayload, h1, h2, h3, h4]
        · simp [processLine, linePayload, h1, h2, h3, h4]
      · simp [processLine, linePayload, h1, h2, h3]

/-- Lines all of whose payloads fail to parse deliver no event and one
diagnostic per submitted payload. -/
lemma processLines_all_fail (parse : List Char → Option ChatStreamEvent) :
    ∀ ls : List (List Char),
      (∀ p ∈ ls.filterMap linePayload, parse p = none) →
      processLines parse ls = ([], (ls.filterMap linePayload).length) := by
  intro ls
  induction ls with
  | nil => intro h; rfl
  | cons l ls ih =>
      intro h
      cases hl : linePayload l with
      | none =>
          have hrest : ∀ p ∈ ls.filterMap linePayload, parse p = none := by
            intro p hp
            exact h p (by simp [List.filterMap_cons, hl, hp])
          simp [processLines, processLine_eq_payload, hl, List.filterMap_cons,
            ih hrest]
      | some p0 =>
          have hp0 : parse p0 = none :=
            h p0 (by simp [List.filterMap_cons, hl])
          have hrest : ∀ p ∈ ls.filterMap linePayload, parse p = none := by
            intro p hp
            exact h p (by simp [List.filterMap_cons, hl, hp])
          simp [processLines, processLine_eq_payload, hl, hp0,
            List.filterMap_cons, ih hrest, Nat.add_comm]

/-- Dropping a satisfied run at the front crosses an append. -/
lemma dropWhile_append_all {p : Char → Bool} :
    ∀ (a b : List Char), (∀ c ∈ a, p c = true) →
      List.dropWhile p (a ++ b) = List.dropWhile p b := by
  intro a
  induction a with
  | nil => intro b h; rfl
  | cons x xs ih =>
      intro b h
      have hx : p x = true := h x (by simp)
      rw [List.cons_append]
      rw [List.dropWhile_cons]
      simp only [hx, if_true]
      exact ih b (fun c hc => h c (by simp [hc]))

/-- Trimming whitespace around a bare `data:` field yields exactly the
field name. -/
lemma trim_ws_dataMark_ws (ws1 ws2 : List Char)
    (h1 : ∀ c ∈ ws1, isWs c = true) (h2 : ∀ c ∈ ws2, isWs c = true) :
    trim (ws1 ++ (dataMark ++ ws2)) = dataMark := by
  unfold trim
  rw [dropWhile_append_all ws1 _ h1]
  have hd : List.dropWhile isWs (dataMark ++ ws2) = dataMark ++ ws2 := by
    have : isWs 'd' = false := by decide
    simp [dataMark, List.cons_append, List.dropWhile_cons, this]
  rw [hd, List.reverse_append]
  rw [dropWhile_append_all ws2.reverse _
    (fun c hc => h2 c (List.mem_reverse.mp hc))]
  decide

end InterpreterLemmas

/-- C8 (confirmed): a frame whose submitted payloads all fail to parse as
JSON delivers no event and one diagnostic per dropped payload, while the
interpretation of all subsequent frames on the connection — and therefore
the turn state they drive — is exactly what it would have been without
the bad frame; the stream is never aborted. -/
theorem c8_decode_failure_isolated :
    ∀ (parse : List Char → Option ChatStreamEvent) (frame : List Char)
      (frames : List (List Char)),
      (∀ p ∈ dataPayloads frame, parse p = none) →
      processFrames parse (frame :: frames)
        = ((processFrames parse frames).1,
            (dataPayloads frame).length + (processFrames parse frames).2)
      ∧ ∀ s : HookState,
          ((processFrames parse (frame :: frames)).1).foldl handleStreamEvent s
            = ((processFrames parse frames).1).foldl handleStreamEvent s := by
  intro parse frame frames h
  have hframe : processFrame parse frame = ([], (dataPayloads frame).length) :=
    processLines_all_fail parse ((splitNL frame).map trim) h
  constructor
  · simp [processFrames, hframe]
  · intro s
    simp [processFrames, hframe]

/-- Witness for C8 at a concrete malformed frame and the always-failing
parser. -/
theorem c8_witness :
    (∀ p ∈ dataPayloads exFrame, parseNone p = none)
    ∧ processFrames parseNone [exFrame]
      = ((processFrames parseNone []).1,
          (dataPayloads exFrame).length + (processFrames parseNone []).2)
    ∧ ((processFrames parseNone [exFrame]).1).foldl handleStreamEvent
        initialHookState
      = ((processFrames parseNone []).1).foldl handleStreamEvent
        initialHookState :=
  ⟨by decide,
    (c8_decode_failure_isolated parseNone exFrame [] (by decide)).1,
    (c8_decode_failure_isolated parseNone exFrame [] (by decide)).2
      initialHookState⟩

/-- C10 (confirmed): a line that is the `data:` field with an empty
remainder (optional whitespace only) delivers no event and no diagnostic
— the parser is never consulted, the result being independent of `parse`
— and the remaining lines are processed exactly as without it. -/
theorem c10_empty_data_line_skipped :
    ∀ (parse : List Char → Option ChatStreamEvent) (ws1 ws2 : List Char)
      (ls : List (List Char)),
      (∀ c ∈ ws1, isWs c = true) → (∀ c ∈ ws2, isWs c = true) →
      processLine parse (trim (ws1 ++ (dataMark ++ ws2))) = (none, 0)
      ∧ processLines parse (trim (ws1 ++ (dataMark ++ ws2)) :: ls)
        = processLines parse ls := by
  intro parse ws1 ws2 ls h1 h2
  rw [trim_ws_dataMark_ws ws1 ws2 h1 h2]
  have hline : processLine parse dataMark = (none, 0) := rfl
  refine ⟨hline, ?_⟩
  simp [processLines, hline]

/-- Witness for C10 at the concrete line `data:` followed by one space. -/
theorem c10_witness :
    (∀ c ∈ ([] : List Char), isWs c = true)
    ∧ (∀ c ∈ [' '], isWs c = true)
    ∧ processLine parseNone (trim ([] ++ (dataMark ++ [' ']))) = (none, 0)
    ∧ processLines parseNone (trim ([] ++ (dataMark ++ [' '])) :: [exLine])
      = processLines parseNone [exLine] :=
  ⟨by decide, by decide,
    (c10_empty_data_line_skipped parseNone [] [' '] [exLine]
      (by decide) (by decide)).1,
    (c10_empty_data_line_skipped parseNone [] [' '] [exLine]
      (by decide) (by decide)).2⟩

/-- Transcript projection of a `sendPrompt` result: the message list when
the call returned, `none` when it threw. -/
def hookMessages : Except String HookState → Option (List MessageRead)
  | .ok st => some st.messages
  | .error _ => none

/-- Surfaced-error projection of a `sendPrompt` result. -/
def hookError : Except String HookState → Option (Option String)
  | .ok st => some st.errorMsg
  | .error _ => none

/-- Event sequences with every `heartbeat` removed. -/
def eraseHeartbeats (events : List ChatStreamEvent) : List ChatStreamEvent :=
  events.filter fun e =>
    match e with
    | .heartbeat => false
    | _ => true

/-- Observation of the stream state that omits only the status text (the
field a heartbeat rewrites). -/
def streamObs (st : StreamingState) :
    Bool × String × Option Nat × Option Nat × Option Nat × Option Nat ×
      Option MetricsObj :=
  (st.active, st.content, st.startedAt, st.promptTokens, st.completionTokens,
    st.totalTokens, st.metrics)

/-- Observation of the hook state that omits only the live status text:
transcript, surfaced error, stream observation, completed-turn snapshot,
controller flag. -/
def obs (s : HookState) :
    List MessageRead × Option String ×
      (Bool × String × Option Nat × Option Nat × Option Nat × Option Nat ×
        Option MetricsObj) ×
      Option StreamingState × Bool :=
  (s.messages, s.errorMsg, streamObs s.stream, s.lastCompletion, s.hasController)

section HelperLemmas

/-- The event handler never touches the transcript. -/
lemma handleStreamEvent_messages (s : HookState) (e : ChatStreamEvent) :
    (handleStreamEvent s e).messages = s.messages := by
  cases e <;> rfl

/-- Delivering any event sequence never touches the transcript. -/
lemma foldl_handleStreamEvent_messages (events : List ChatStreamEvent) :
    ∀ s : HookState,
      (events.foldl handleStreamEvent s).messages = s.messages := by
  induction events with
  | nil => intro s; rfl
  | cons e es ih =>
      intro s
      simpa [List.foldl_cons, handleStreamEvent_messages] using
        (ih (handleStreamEvent s e)).trans (handleStreamEvent_messages s e)

/-- A heartbeat changes nothing observable but the status text. -/
lemma obs_heartbeat (s : HookState) :
    obs (handleStreamEvent s .heartbeat) = obs s := rfl

/-- The event handler is a function of the observation: two states that
agree on everything but the status text keep agreeing after any event. -/
lemma obs_handleStreamEvent_congr {s s' : HookState} (h : obs s = obs s')
    (e : ChatStreamEvent) :
    obs (handleStreamEvent s e) = obs (handleStreamEvent s' e) := by
  simp only [obs, streamObs, Prod.mk.injEq] at h
  obtain ⟨h1, h2, ⟨h3, h4, h5, h6, h7, h8, h9⟩, h10, h11⟩ := h
  cases e <;>
    simp [handleStreamEvent, obs, streamObs, resetStreamS, h1, h2, h3, h4, h5,
      h6, h7, h8, h9, h10, h11]

/-- Congruence of `obs` through a whole event sequence. -/
lemma obs_foldl_congr (events : List ChatStreamEvent) :
    ∀ {s s' : HookState}, obs s = obs s' →
      obs (events.foldl handleStreamEvent s) =
        obs (events.foldl handleStreamEvent s') := by
  induction events with
  | nil => intro s s' h; simpa using h
  | cons e es ih =>
      intro s s' h
      simpa [List.foldl_cons] using ih (obs_handleStreamEvent_congr h e)

/-- Unfolding of `eraseHeartbeats` over a cons cell. -/
lemma eraseHeartbeats_cons (e : ChatStreamEvent) (es : List ChatStreamEvent) :
    eraseHeartbeats (e :: es) =
      if e = .heartbeat then eraseHeartbeats es else e :: eraseHeartbeats es := by
  cases e <;> simp [eraseHeartbeats]

/-- Removing the heartbeats from a delivered sequence does not change the
observation of the final state. -/
lemma obs_foldl_eraseHeartbeats (events : List ChatStreamEvent) :
    ∀ s : HookState,
      obs (events.foldl handleStreamEvent s) =
        obs ((eraseHeartbeats events).foldl handleStreamEvent s) := by
  induction events with
  | nil => intro s; rfl
  | cons e es ih =>
      intro s
      rcases eq_or_ne e .heartbeat with hb | hb
      · subst hb
        rw [List.foldl_cons, eraseHeartbeats_cons, if_pos rfl]
        exact (ih _).trans (obs_foldl_congr _ (obs_heartbeat s))
      · rw [List.foldl_cons, eraseHeartbeats_cons, if_neg hb, List.foldl_cons]
        exact ih _

end HelperLemmas

/-- C3 (confirmed): chunk payloads are cumulative, not deltas. Processing
`chunk("Hel")`, `chunk("Hello")`, `complete(prompt_tokens=3,
completion_tokens=2)` from the just-armed streaming state accumulates
exactly "Hello" (each chunk replaces the previous content), and the
completed-turn token snapshot displays as
`(promptTokens, completionTokens, totalTokens) = (3, 2, 5)`. -/
theorem c3_chunks_cumulative_last_wins :
    (([ChatStreamEvent.chunk "Hel" none, ChatStreamEvent.chunk "Hello" none,
        ChatStreamEvent.complete (some 3) (some 2) none none].foldl
        handleStreamEvent (startStream 0 initialHookState)).stream.content
      = "Hello")
    ∧ hudTokenCounts
        ([ChatStreamEvent.chunk "Hel" none, ChatStreamEvent.chunk "Hello" none,
          ChatStreamEvent.complete (some 3) (some 2) none none].foldl
          handleStreamEvent (startStream 0 initialHookState)).lastCompletion
        none = (3, 2, 5) := by
  exact ⟨rfl, rfl⟩

/-- C2 (counterexample): the claim that events arriving after a
`complete` are ignored is false. A `chunk` processed after a `complete`
on the same connection changes the accumulated content. -/
theorem c2_counterexample :
    (handleStreamEvent (handleStreamEvent (startStream 0 initialHookState)
        (.complete (some 3) (some 2) (some 5) none))
        (.chunk "after" none)).stream.content
      ≠ (handleStreamEvent (startStream 0 initialHookState)
        (.complete (some 3) (some 2) (some 5) none)).stream.content := by
  decide

/-- C2 (amended): once a `complete` event has been processed, subsequent
events on the same connection are NOT ignored — the handler has no
terminal-phase guard. A later chunk overwrites the accumulated content
and a later complete overwrites the completed-turn snapshot. -/
theorem c2_amended_post_complete_events_still_processed :
    ∀ (s : HookState) (pt ct tt : Option Nat) (m : Option MetricsObj)
      (c : String) (th : Option String) (pt2 ct2 tt2 : Option Nat)
      (m2 : Option MetricsObj),
      (handleStreamEvent (handleStreamEvent s (.complete pt ct tt m))
          (.chunk c th)).stream.content = c
      ∧ (handleStreamEvent (handleStreamEvent s (.complete pt ct tt m))
          (.complete pt2 ct2 tt2 m2)).lastCompletion =
        some { active := false, content := "", status := none,
               startedAt := none, promptTokens := pt2, completionTokens := ct2,
               totalTokens := tt2, metrics := some (m2.getD []) } := by
  intro s pt ct tt m c th pt2 ct2 tt2 m2
  exact ⟨rfl, rfl⟩

/-- C4 (counterexample): the claim that every absent token field of a
`complete` event is recorded as zero is false. For
`complete(prompt_tokens=3)` the displayed total is 3 (the sum fallback),
not 0, and the stored snapshot keeps the absent total as null, not 0. -/
theorem c4_counterexample :
    hudTokenCounts (handleStreamEvent (startStream 0 initialHookState)
        (.complete (some 3) none none none)).lastCompletion none = (3, 0, 3)
    ∧ ((handleStreamEvent (startStream 0 initialHookState)
        (.complete (some 3) none none none)).lastCompletion.bind
          (fun lc => lc.totalTokens)) = none
    ∧ (3 : Nat) ≠ 0 := by
  refine ⟨rfl, rfl, by decide⟩

/-- C4 (amended): a `complete` event records its token fields as given,
keeping null for absent ones, and the derived HUD snapshot (with no
session totals) defaults an absent promptTokens or completionTokens to
zero and an absent totalTokens to the sum of the two displayed counts;
extraction never fails. -/
theorem c4_amended_token_defaults :
    ∀ (s : HookState) (pt ct tt : Option Nat) (m : Option MetricsObj),
      (handleStreamEvent s (.complete pt ct tt m)).lastCompletion =
        some { active := false, content := "", status := none,
               startedAt := none, promptTokens := pt, completionTokens := ct,
               totalTokens := tt, metrics := some (m.getD []) }
      ∧ hudTokenCounts
          (handleStreamEvent s (.complete pt ct tt m)).lastCompletion none
        = (pt.getD 0, ct.getD 0, tt.getD (pt.getD 0 + ct.getD 0)) := by
  intro s pt ct tt m
  exact ⟨rfl, rfl⟩

/-- C5 (counterexample): a second `sendPrompt` while a turn is active is
rejected synchronously, but the thrown failure reads "Streaming already
in progress", not the claimed "stream already in progress". -/
theorem c5_counterexample :
    sendPrompt (some 1) 0 (startStream 0 initialHookState)
        { prompt := some "x" } (.drained [] [])
      = .error "Streaming already in progress"
    ∧ "Streaming already in progress" ≠ "stream already in progress" := by
  exact ⟨rfl, by decide⟩

/-- C5 (amended): for every session with a non-terminal (active) turn, a
second `sendPrompt` call throws the failure "Streaming already in
progress" synchronously, before any network I/O (the result does not
depend on the stream outcome), producing no new state — the first turn is
untouched and the call is never queued or merged. -/
theorem c5_amended_overlap_rejected :
    ∀ (sessionId : Option Nat) (now : Nat) (s : HookState)
      (opts : ChatSendOptions) (o : StreamOutcome),
      sessionTruthy sessionId = true → s.stream.active = true →
      sendPrompt sessionId now s opts o
        = .error "Streaming already in progress" := by
  intro sid now s opts o h1 h2
  simp [sendPrompt, h1, h2]

/-- Witness for C5 (amended) at a concrete active-turn state. -/
theorem c5_witness :
    sessionTruthy (some 1) = true
    ∧ (startStream 0 initialHookState).stream.active = true
    ∧ sendPrompt (some 1) 0 (startStream 0 initialHookState)
        { prompt := some "x" } (.drained [] [])
      = .error "Streaming already in progress" :=
  ⟨by decide, by decide,
    c5_amended_overlap_rejected (some 1) 0 (startStream 0 initialHookState)
      { prompt := some "x" } (.drained [] []) (by decide) (by decide)⟩

/-- C6 (confirmed): `cancel` is idempotent and a no-op after a turn has
reached any terminal phase. Every completed turn ends in the reset state,
where cancelling changes nothing; and cancelling twice equals cancelling
once on every state. -/
theorem c6_cancel_idempotent_no_op_after_terminal :
    ∀ (s : HookState) (o : StreamOutcome) (t : HookState),
      cancelStream (runStream s o) = runStream s o
      ∧ cancelStream (cancelStream t) = cancelStream t := by
  intro s o t
  refine ⟨?_, rfl⟩
  cases o <;> rfl

/-- C9 (confirmed): heartbeat idempotence. Two event sequences that agree
after erasing heartbeats — in particular a sequence and any version of it
with heartbeats inserted anywhere — yield the same final observation:
transcript, surfaced error, accumulated content, active flag, token
fields, metrics and completed-turn snapshot (only the status text may
differ). -/
theorem c9_heartbeat_idempotence :
    ∀ (s : HookState) (e1 e2 : List ChatStreamEvent),
      eraseHeartbeats e1 = eraseHeartbeats e2 →
      obs (e1.foldl handleStreamEvent s) = obs (e2.foldl handleStreamEvent s) := by
  intro s e1 e2 h
  calc obs (e1.foldl handleStreamEvent s)
      = obs ((eraseHeartbeats e1).foldl handleStreamEvent s) :=
        obs_foldl_eraseHeartbeats e1 s
    _ = obs ((eraseHeartbeats e2).foldl handleStreamEvent s) := by rw [h]
    _ = obs (e2.foldl handleStreamEvent s) :=
        (obs_foldl_eraseHeartbeats e2 s).symm

/-- Witness for C9 at a concrete pair of sequences: inserting two
heartbeats around a chunk changes nothing observable. -/
theorem c9_witness :
    eraseHeartbeats [ChatStreamEvent.chunk "a" none]
      = eraseHeartbeats [ChatStreamEvent.heartbeat,
          ChatStreamEvent.chunk "a" none, ChatStreamEvent.heartbeat]
    ∧ obs ([ChatStreamEvent.chunk "a" none].foldl handleStreamEvent
          initialHookState)
      = obs ([ChatStreamEvent.heartbeat, ChatStreamEvent.chunk "a" none,
          ChatStreamEvent.heartbeat].foldl handleStreamEvent initialHookState) :=
  ⟨by decide,
    c9_heartbeat_idempotence initialHookState
      [ChatStreamEvent.chunk "a" none]
      [ChatStreamEvent.heartbeat, ChatStreamEvent.chunk "a" none,
        ChatStreamEvent.heartbeat] (by decide)⟩

/-- C1 (counterexample): the claim that an error-terminated turn keeps the
optimistic row and triggers no refetch is false. A stream that emits
`error(model not found)` and then closes resolves normally, so
`sendPrompt` refetches: with the server returning an empty list, the final
transcript is empty (the optimistic row is gone) and the surfaced error
has even been cleared by the refetch. -/
theorem c1_counterexample :
    hookMessages (sendPrompt (some 1) 5 initialHookState
        { prompt := some "hi" }
        (.drained [ChatStreamEvent.error "model not found"] [])) = some []
    ∧ hookError (sendPrompt (some 1) 5 initialHookState
        { prompt := some "hi" }
        (.drained [ChatStreamEvent.error "model not found"] [])) = some none := by
  exact ⟨rfl, rfl⟩

/-- C1 (amended): the optimistic row survives and no refetch happens only
when the stream call itself rejects — a non-abort transport failure
(which also surfaces its message) or an abort of the initial request.
Whenever the response stream drains (normal completion, a server-sent
error event, or a mid-stream cancellation whose abort is swallowed), the
transcript is wholesale replaced by the refetched server list. The error
event itself does preserve the transcript and resets the accumulated
content to empty. -/
theorem c1_amended_refetch_on_drain_only :
    ∀ (s : HookState) (sid now : Nat) (p : String) (mdl : Option String)
      (events : List ChatStreamEvent) (msg : String)
      (serverMsgs : List MessageRead),
      s.stream.active = false → sessionTruthy (some sid) = true →
      p.isEmpty = false →
      hookMessages (sendPrompt (some sid) now s
          { prompt := some p, model := mdl } .abortError)
        = some (s.messages ++ [optimisticMessage sid now p mdl])
      ∧ hookMessages (sendPrompt (some sid) now s
          { prompt := some p, model := mdl } (.failed events msg))
        = some (s.messages ++ [optimisticMessage sid now p mdl])
      ∧ hookError (sendPrompt (some sid) now s
          { prompt := some p, model := mdl } (.failed events msg))
        = some (some msg)
      ∧ hookMessages (sendPrompt (some sid) now s
          { prompt := some p, model := mdl } (.drained events serverMsgs))
        = some serverMsgs
      ∧ (handleStreamEvent s (.error msg)).messages = s.messages
      ∧ (handleStreamEvent s (.error msg)).stream.content = "" := by
  intro s sid now p mdl events msg serverMsgs h1 h2 h3
  refine ⟨?_, ?_, ?_, ?_, rfl, rfl⟩ <;>
    simp [sendPrompt, runStream, resetStreamS, startStream, hookMessages,
      hookError, promptTruthy, regenTruthy, h1, h2, h3,
      foldl_handleStreamEvent_messages]

/-- Witness for C1 (amended) at concrete inputs. -/
theorem c1_witness :
    initialHookState.stream.active = false
    ∧ sessionTruthy (some 1) = true
    ∧ String.isEmpty "hi" = false
    ∧ (hookMessages (sendPrompt (some 1) 5 initialHookState
          { prompt := some "hi", model := none } .abortError)
        = some (initialHookState.messages ++ [optimisticMessage 1 5 "hi" none])
      ∧ hookMessages (sendPrompt (some 1) 5 initialHookState
          { prompt := some "hi", model := none }
          (.failed [ChatStreamEvent.heartbeat] "boom"))
        = some (initialHookState.messages ++ [optimisticMessage 1 5 "hi" none])
      ∧ hookError (sendPrompt (some 1) 5 initialHookState
          { prompt := some "hi", model := none }
          (.failed [ChatStreamEvent.heartbeat] "boom"))
        = some (some "boom")
      ∧ hookMessages (sendPrompt (some 1) 5 initialHookState
          { prompt := some "hi", model := none }
          (.drained [ChatStreamEvent.heartbeat] []))
        = some []
      ∧ (handleStreamEvent initialHookState (.error "boom")).messages
        = initialHookState.messages
      ∧ (handleStreamEvent initialHookState (.error "boom")).stream.content
        = "") :=
  ⟨by decide, by decide, by decide,
    c1_amended_refetch_on_drain_only initialHookState 1 5 "hi" none
      [ChatStreamEvent.heartbeat] "boom" [] (by decide) (by decide) (by decide)⟩

end ChatWebUI
